import Mathlib

/-!
Verification development for the pdf-service repository.

The core of the service is `replaceTemplate` (template token substitution),
`formatDate`, the conditional section pruner run inside `page.evaluate`
in the `/upload-pdf` handler, and the PDF page-size computation.
The two source variants (`src/index.js` and `src/unnamed/part_000`) share
`replaceTemplate` and `formatDate` verbatim; their pruners differ in that
only the `part_000` variant removes the story section.

JavaScript values arriving through the JSON body are modelled by `JSVal`
(undefined, null, string, integer number, boolean); machine details of JS
floating point are not needed by any claim except the page-size formula,
which is modelled over `ℚ` with the literal constant 0.264583 from the
source.
-/

/-- A JavaScript value as it can appear in a field of the request body
(after JSON parsing) or as the absent marker `undefined`. -/
inductive JSVal where
  | undefined
  | null
  | str (s : String)
  | num (n : Int)
  | bool (b : Bool)
deriving DecidableEq, Repr

/-- JS `String(v)` coercion (for the values `JSVal` covers), as a char list. -/
def jsStringL : JSVal → List Char
  | .undefined => "undefined".toList
  | .null => "null".toList
  | .str s => s.toList
  | .num n => (toString n).toList
  | .bool true => "true".toList
  | .bool false => "false".toList

/-- JS falsiness for the values `JSVal` covers: `undefined`, `null`, the
empty string, the number 0 and `false` are falsy. -/
def falsy : JSVal → Bool
  | .undefined => true
  | .null => true
  | .str s => s.toList.isEmpty
  | .num n => n == 0
  | .bool b => !b

/-- JS regex `\w`: ASCII letters, digits and underscore. -/
def isWordChar (c : Char) : Bool :=
  c.isAlpha || c.isDigit || c == '_'

/-- JS whitespace as used by `\s` and `String.prototype.trim`, restricted to
the core characters (space, tab, newline, carriage return). -/
def isSpaceJS (c : Char) : Bool :=
  c == ' ' || c == '\t' || c == '\n' || c == '\r'

/-- JS `s.trim()` on a char list: drop leading and trailing whitespace. -/
def trimL (l : List Char) : List Char :=
  ((l.dropWhile isSpaceJS).reverse.dropWhile isSpaceJS).reverse

/-- JS `s.split(sep)` for a one-character separator, on char lists. -/
def splitOnChar (sep : Char) : List Char → List (List Char)
  | [] => [[]]
  | c :: rest =>
    if c == sep then [] :: splitOnChar sep rest
    else
      match splitOnChar sep rest with
      | [] => [[c]]
      | line :: lines => (c :: line) :: lines

/-- JS `line.replace(/^- /, "")`: strip a single leading `"- "` marker
(src/index.js line 60). -/
def stripDashL : List Char → List Char
  | '-' :: ' ' :: rest => rest
  | l => l

/-- JS `String(value).replace(/\n/g, "<br>")` (src/index.js line 64). -/
def replaceNewlinesL : List Char → List Char
  | [] => []
  | '\n' :: rest => '<' :: 'b' :: 'r' :: '>' :: replaceNewlinesL rest
  | c :: rest => c :: replaceNewlinesL rest

/-- The designated list-formatted field names (src/index.js lines 37-45). -/
def listFields : List String :=
  ["interests", "webinars", "team", "position", "trips", "tasks", "leadershipAcademy"]

/-- The split/trim/discard pipeline of the list branch (src/index.js
lines 49-52): split the stringified value on newline, trim each line,
drop lines that are empty after trimming. -/
def nonEmptyTrimmedLines (s : List Char) : List (List Char) :=
  ((splitOnChar '\n' s).map trimL).filter (fun l => !l.isEmpty)

/-- The list branch of `replaceTemplate` (src/index.js lines 47-61):
one surviving line renders as a paragraph, otherwise a `<ul>` whose items
have a single leading `"- "` stripped and are trimmed again. -/
def formatListL (s : List Char) : List Char :=
  match nonEmptyTrimmedLines s with
  | [l] => "<p>".toList ++ l ++ "</p>".toList
  | ls =>
    "<ul>".toList
      ++ (ls.map (fun l => "<li>".toList ++ trimL (stripDashL l) ++ "</li>".toList)).flatten
      ++ "</ul>".toList

/-- A field map: the `templateData` object, with `lookup` failure standing
for a JS property read yielding `undefined`. -/
def FieldMap : Type := List (String × JSVal)

/-- JS `data[key]`: absent keys read as `undefined`. -/
def getField (data : FieldMap) (key : String) : JSVal :=
  (List.lookup key data).getD .undefined

/-- The replacement string produced for one matched token with name `key`
(the body of the callback in src/index.js lines 32-65): `undefined`
preserves a normalised token, list fields format via the list branch, and
all other fields stringify with newlines turned into `<br>`. -/
def tokenReplacement (data : FieldMap) (key : String) : List Char :=
  match getField data key with
  | .undefined => '{' :: '{' :: (key.toList ++ ['}', '}'])
  | v =>
    if listFields.contains key then formatListL (jsStringL v)
    else replaceNewlinesL (jsStringL v)

/-- Match the tail of a token after an opening `{{` against
`\s*(\w+)\s*}}` (the character classes are disjoint, so the greedy regex
match is this deterministic scan). Returns the captured key and the
characters following the closing braces. -/
def matchToken (cs : List Char) : Option (String × List Char) :=
  let cs1 := cs.dropWhile isSpaceJS
  let key := cs1.takeWhile isWordChar
  if key.isEmpty then none
  else
    match (cs1.dropWhile isWordChar).dropWhile isSpaceJS with
    | '}' :: '}' :: rest => some (String.mk key, rest)
    | _ => none

/-- The global-regex replacement loop of `template.replace(/{{\s*(\w+)\s*}}/g, ...)`:
leftmost match, continue after each match, copy unmatched characters.
`fuel` only serves structural termination; `template.length + 1` is always
enough since every step strictly shortens the remaining input. -/
def replaceTemplateL (data : FieldMap) : Nat → List Char → List Char
  | 0, cs => cs
  | _ + 1, [] => []
  | fuel + 1, '{' :: '{' :: rest =>
    (match matchToken rest with
     | some (key, rest') => tokenReplacement data key ++ replaceTemplateL data fuel rest'
     | none => '{' :: replaceTemplateL data fuel ('{' :: rest))
  | fuel + 1, c :: rest => c :: replaceTemplateL data fuel rest

/-- `replaceTemplate(template, data)` (src/index.js lines 31-66). -/
def replaceTemplate (template : String) (data : FieldMap) : String :=
  String.mk (replaceTemplateL data (template.toList.length + 1) template.toList)

/-- `formatDate(isoDate)` (src/index.js lines 100-104). A falsy argument
returns the empty string; a truthy string is split on `"-"` and the first
three parts are interpolated as `day / month / year` (JS destructuring
yields `undefined`, printed as "undefined", for missing parts); a truthy
non-string has no `.split` method and throws. -/
def formatDate (isoDate : JSVal) : Except String String :=
  if falsy isoDate then .ok ""
  else
    match isoDate with
    | .str s =>
      let parts := splitOnChar '-' s.toList
      let year := (parts.get? 0).getD "undefined".toList
      let month := (parts.get? 1).getD "undefined".toList
      let day := (parts.get? 2).getD "undefined".toList
      .ok (String.mk (day ++ " / ".toList ++ month ++ " / ".toList ++ year))
    | _ => .error "TypeError: isoDate.split is not a function"

/-! ## The conditional section pruner

The `page.evaluate` callback in the `/upload-pdf` handler removes optional
sections by element id. The document is modelled as the list of element
ids present; `document.getElementById` + `remove()` for a set of ids is a
filter, and a missing id is a silent no-op. A condition of the form
`!data.x || data.x.trim() === ''` short-circuits on falsy values and
otherwise calls `.trim()`, which throws a `TypeError` on a truthy
non-string — the callback is therefore `Except`-valued. -/

/-- The guard `!v || v.trim() === ''` used for the academy, story, team and
story-link sections: true on any falsy value, otherwise trim-emptiness of
a string, and a thrown `TypeError` on a truthy non-string. -/
def condBlankFalsy (v : JSVal) : Except String Bool :=
  if falsy v then .ok true
  else
    match v with
    | .str s => .ok (trimL s.toList).isEmpty
    | _ => .error "TypeError: v.trim is not a function"

/-- Remove every element whose id is in `ids` from the document. -/
def removeIds (ids : List String) (doc : List String) : List String :=
  doc.filter (fun e => !(ids.contains e))

/-- One conditional removal step: evaluate the falsy-or-trim-blank guard
and remove the given ids when it holds. -/
def condRemove (v : JSVal) (ids : List String) (doc : List String) :
    Except String (List String) :=
  match condBlankFalsy v with
  | .error e => .error e
  | .ok true => .ok (removeIds ids doc)
  | .ok false => .ok doc

/-- The element ids removed together when `team` is blank
(src/index.js line 164). -/
def teamIds : List String := ["team", "position", "team-break-line", "feadback"]

/-- The five previous-period fields gating the chart container
(src/index.js lines 182-188). -/
def prevFields : List String :=
  ["previousMonths", "previousCourses", "previousTrips",
   "previousVolunteering", "previousTasks"]

/-- The per-value test of the chart-container guard (src/index.js
lines 190-193): `value === undefined || value === null ||
(typeof value === 'string' && value.trim() === '')`. -/
def isEmptyPrevValue : JSVal → Bool
  | .undefined => true
  | .null => true
  | .str s => (trimL s.toList).isEmpty
  | _ => false

/-- `previousData.some(...)` over the five previous-period fields. -/
def hasEmptyPreviousData (data : FieldMap) : Bool :=
  (prevFields.map (getField data)).any isEmptyPrevValue

/-- The pruning callback of `src/index.js` (lines 153-201): academy, team
cluster, story-link, then chart container. No story-section rule exists in
this variant. -/
def pruneIndex (data : FieldMap) (doc : List String) : Except String (List String) :=
  match condRemove (getField data "leadershipAcademy") ["academy"] doc with
  | .error e => .error e
  | .ok doc1 =>
    match condRemove (getField data "team") teamIds doc1 with
    | .error e => .error e
    | .ok doc2 =>
      match condRemove (getField data "storyLink") ["story-link"] doc2 with
      | .error e => .error e
      | .ok doc3 =>
        .ok (if hasEmptyPreviousData data then removeIds ["chart-container"] doc3 else doc3)

/-- The pruning callback of `src/unnamed/part_000` (lines 180-235):
academy, story, team cluster, story-link, then chart container. -/
def prunePart000 (data : FieldMap) (doc : List String) : Except String (List String) :=
  match condRemove (getField data "leadershipAcademy") ["academy"] doc with
  | .error e => .error e
  | .ok doc1 =>
    match condRemove (getField data "storyText") ["story"] doc1 with
    | .error e => .error e
    | .ok doc2 =>
      match condRemove (getField data "team") teamIds doc2 with
      | .error e => .error e
      | .ok doc3 =>
        match condRemove (getField data "storyLink") ["story-link"] doc3 with
        | .error e => .error e
        | .ok doc4 =>
          .ok (if hasEmptyPreviousData data then removeIds ["chart-container"] doc4 else doc4)

/-! ## PDF page sizing -/

/-- The pixel-to-millimetre factor `0.264583` of src/index.js line 214. -/
def pxToMM : ℚ := 264583 / 1000000

/-- `Math.max(297, bodyHeight * 0.264583)` (src/index.js line 214). -/
def pdfHeightMM (bodyHeight : ℚ) : ℚ := max 297 (bodyHeight * pxToMM)

/-- The page dimensions passed to the single `page.pdf` call
(src/index.js lines 215-220): fixed 210mm width, computed height. -/
structure PdfPageSize where
  widthMM : ℚ
  heightMM : ℚ
deriving DecidableEq

/-- The page size used for the one variable-length page. -/
def pdfPageSize (bodyHeight : ℚ) : PdfPageSize :=
  { widthMM := 210, heightMM := pdfHeightMM bodyHeight }

/-! ## The upload-pdf entry gate -/

/-- The request-independent state the `/upload-pdf` handler of
`src/index.js` consults before reaching the rendering pipeline: whether
OAuth tokens are available (line 122) and whether `template.html` exists
(line 126). -/
structure UploadEnv where
  tokensPresent : Bool
  templateExists : Bool
deriving DecidableEq

/-- How the `/upload-pdf` handler of `src/index.js` leaves its entry
section: an early JSON error response, or entry into the rendering
pipeline (lines 130 onward), which is the only path on which
`puppeteer.launch` is ever executed (line 147). -/
inductive UploadPhase where
  | earlyClientError (status : Nat) (errMsg : String)
  | renderPipeline
deriving DecidableEq

/-- The entry section of `app.post("/upload-pdf")` (src/index.js
lines 118-130): a 401 without tokens, a 400 when `template.html` is
absent, otherwise proceed to rendering. -/
def uploadPdfEntry (env : UploadEnv) : UploadPhase :=
  if !env.tokensPresent then .earlyClientError 401 "Not authenticated"
  else if !env.templateExists then .earlyClientError 400 "template.html file not found"
  else .renderPipeline

/-- A response phase that is a client error: a 4xx status carrying an
error message, as opposed to entering the rendering pipeline. -/
def isClientError : UploadPhase → Prop
  | .earlyClientError s _ => 400 ≤ s ∧ s < 500
  | .renderPipeline => False

/-! ## Definitions following the specification's words

These are stated from the spec for refinement-style comparison with the
source-derived definitions above. -/

/-- Modelled from the spec (section 4.1): split the stringified value on
newline, trim each line, discard empties; exactly one line gives a
paragraph, zero lines give the empty list `<ul></ul>`, two or more give a
`<ul>` of `<li>` items with a single leading `"- "` stripped and trimmed
again. -/
def specListFormat (s : List Char) : List Char :=
  match ((splitOnChar '\n' s).map trimL).filter (fun l => !l.isEmpty) with
  | [] => "<ul></ul>".toList
  | [l] => "<p>".toList ++ l ++ "</p>".toList
  | ls =>
    "<ul>".toList
      ++ (ls.map (fun l => "<li>".toList ++ trimL (stripDashL l) ++ "</li>".toList)).flatten
      ++ "</ul>".toList

/-- Modelled from the spec (section 4.2 blank test, restricted to the
chart-container wording of the claim): a value is blank when it is the
absent marker, an explicit null, or a string that trims to the empty
string. -/
def specBlankPrev (v : JSVal) : Prop :=
  v = .undefined ∨ v = .null ∨ ∃ s, v = .str s ∧ trimL s.toList = []

instance (v : JSVal) : Decidable (specBlankPrev v) := by
  unfold specBlankPrev
  cases v with
  | str s =>
    by_cases h : trimL s.toList = []
    · exact .isTrue (Or.inr (Or.inr ⟨s, rfl, h⟩))
    · refine .isFalse ?_
      rintro (h1 | h1 | ⟨t, ht, h2⟩) <;> simp_all
  | undefined => exact .isTrue (Or.inl rfl)
  | null => exact .isTrue (Or.inr (Or.inl rfl))
  | num n => refine .isFalse ?_; rintro (h | h | ⟨t, ht, h2⟩) <;> simp_all
  | bool b => refine .isFalse ?_; rintro (h | h | ⟨t, ht, h2⟩) <;> simp_all

instance exceptDecEq {ε α : Type} [DecidableEq ε] [DecidableEq α] :
    DecidableEq (Except ε α)
  | .error e, .error f =>
    if h : e = f then .isTrue (by rw [h])
    else .isFalse (by intro hh; injection hh; exact h (by assumption))
  | .ok x, .ok y =>
    if h : x = y then .isTrue (by rw [h])
    else .isFalse (by intro hh; injection hh; exact h (by assumption))
  | .error _, .ok _ => .isFalse (by intro hh; exact Except.noConfusion hh)
  | .ok _, .error _ => .isFalse (by intro hh; exact Except.noConfusion hh)

/-! ## Helper lemmas -/

lemma replaceTemplateL_nil (data : FieldMap) (fuel : Nat) :
    replaceTemplateL data fuel [] = [] := by
  cases fuel <;> rfl

lemma replaceTemplateL_braces (data : FieldMap) (fuel : Nat) (rest : List Char) :
    replaceTemplateL data (fuel + 1) ('{' :: '{' :: rest)
      = match matchToken rest with
        | some (key, rest') => tokenReplacement data key ++ replaceTemplateL data fuel rest'
        | none => '{' :: replaceTemplateL data fuel ('{' :: rest) := rfl

lemma dropWhile_append_all {p : Char → Bool} {l1 l2 : List Char}
    (h : ∀ c ∈ l1, p c = true) :
    (l1 ++ l2).dropWhile p = l2.dropWhile p := by
  induction l1 with
  | nil => rfl
  | cons a t ih =>
    simp only [List.cons_append, List.dropWhile_cons_of_pos (h a (by simp))]
    exact ih (fun c hc => h c (by simp [hc]))

lemma takeWhile_append_stop {p : Char → Bool} {l1 l2 : List Char} {a : Char}
    (h1 : ∀ c ∈ l1, p c = true) (h2 : p a = false) :
    (l1 ++ a :: l2).takeWhile p = l1 := by
  induction l1 with
  | nil => simp [List.takeWhile_cons_of_neg, h2]
  | cons b t ih =>
    simp only [List.cons_append, List.takeWhile_cons_of_pos (h1 b (by simp))]
    rw [ih (fun c hc => h1 c (by simp [hc]))]

lemma dropWhile_append_stop {p : Char → Bool} {l1 l2 : List Char} {a : Char}
    (h1 : ∀ c ∈ l1, p c = true) (h2 : p a = false) :
    (l1 ++ a :: l2).dropWhile p = a :: l2 := by
  rw [dropWhile_append_all h1]
  simp [List.dropWhile_cons_of_neg, h2]

lemma space_not_word {c : Char} (h : isSpaceJS c = true) : isWordChar c = false := by
  simp only [isSpaceJS, Bool.or_eq_true, beq_iff_eq] at h
  rcases h with ((h | h) | h) | h <;> subst h <;> decide

lemma word_not_space {c : Char} (h : isWordChar c = true) : isSpaceJS c = false := by
  cases hs : isSpaceJS c with
  | false => rfl
  | true => rw [space_not_word hs] at h; exact absurd h (by simp)

lemma matchToken_spec (ws1 key ws2 rest : List Char)
    (h1 : ∀ c ∈ ws1, isSpaceJS c = true) (h2 : ∀ c ∈ key, isWordChar c = true)
    (h3 : key ≠ []) (h4 : ∀ c ∈ ws2, isSpaceJS c = true) :
    matchToken (ws1 ++ (key ++ (ws2 ++ ('}' :: '}' :: rest)))) = some (String.mk key, rest) := by
  obtain ⟨k0, kt, rfl⟩ : ∃ k0 kt, key = k0 :: kt := by
    cases key with
    | nil => exact absurd rfl h3
    | cons a t => exact ⟨a, t, rfl⟩
  have hk0 : isWordChar k0 = true := h2 k0 (by simp)
  have stepA : (ws1 ++ ((k0 :: kt) ++ (ws2 ++ ('}' :: '}' :: rest)))).dropWhile isSpaceJS
      = (k0 :: kt) ++ (ws2 ++ ('}' :: '}' :: rest)) := by
    have := @dropWhile_append_stop isSpaceJS ws1
      (kt ++ (ws2 ++ ('}' :: '}' :: rest))) k0 h1 (word_not_space hk0)
    simpa using this
  have hstop : ∃ a l2, ws2 ++ ('}' :: '}' :: rest) = a :: l2 ∧ isWordChar a = false := by
    cases ws2 with
    | nil => exact ⟨'}', '}' :: rest, rfl, by decide⟩
    | cons w wt =>
      exact ⟨w, wt ++ ('}' :: '}' :: rest), rfl, space_not_word (h4 w (by simp))⟩
  obtain ⟨a, l2, heq, ha⟩ := hstop
  have stepB : ((k0 :: kt) ++ (ws2 ++ ('}' :: '}' :: rest))).takeWhile isWordChar
      = k0 :: kt := by
    rw [heq]; exact takeWhile_append_stop h2 ha
  have stepC : ((k0 :: kt) ++ (ws2 ++ ('}' :: '}' :: rest))).dropWhile isWordChar
      = ws2 ++ ('}' :: '}' :: rest) := by
    rw [heq]
    exact dropWhile_append_stop h2 ha
  have stepD : (ws2 ++ ('}' :: '}' :: rest)).dropWhile isSpaceJS = '}' :: '}' :: rest :=
    dropWhile_append_stop h4 (by decide)
  simp only [matchToken, stepA, stepB, stepC, stepD, List.isEmpty_cons]
  rfl

lemma render_single_token (data : FieldMap) (ws1 key ws2 : List Char)
    (h1 : ∀ c ∈ ws1, isSpaceJS c = true) (h2 : ∀ c ∈ key, isWordChar c = true)
    (h3 : key ≠ []) (h4 : ∀ c ∈ ws2, isSpaceJS c = true) :
    replaceTemplate (String.mk ('{' :: '{' :: (ws1 ++ (key ++ (ws2 ++ ['}', '}']))))) data
      = String.mk (tokenReplacement data (String.mk key)) := by
  have hlen : ('{' :: '{' :: (ws1 ++ (key ++ (ws2 ++ ['}', '}'])))).length
      = (ws1 ++ (key ++ (ws2 ++ ['}', '}']))).length + 1 + 1 := by simp
  show String.mk (replaceTemplateL data
      (('{' :: '{' :: (ws1 ++ (key ++ (ws2 ++ ['}', '}'])))).length + 1)
      ('{' :: '{' :: (ws1 ++ (key ++ (ws2 ++ ['}', '}']))))) = _
  rw [hlen]
  rw [replaceTemplateL_braces]
  have := matchToken_spec ws1 key ws2 [] h1 h2 h3 h4
  rw [show ws2 ++ ('}' :: '}' :: ([] : List Char)) = ws2 ++ ['}', '}'] from rfl] at this
  rw [this]
  simp [replaceTemplateL_nil]

lemma formatListL_eq_spec (s : List Char) : formatListL s = specListFormat s := by
  unfold formatListL specListFormat nonEmptyTrimmedLines
  cases h : ((splitOnChar '\n' s).map trimL).filter (fun l => !l.isEmpty) with
  | nil => rfl
  | cons a t => cases t <;> rfl

lemma mem_removeIds {x : String} {ids doc : List String} :
    x ∈ removeIds ids doc ↔ x ∈ doc ∧ ids.contains x = false := by
  simp [removeIds, List.mem_filter]

lemma condRemove_ok {v : JSVal} {ids doc doc' : List String}
    (h : condRemove v ids doc = .ok doc') :
    doc' = removeIds ids doc ∨ doc' = doc := by
  unfold condRemove at h
  cases hb : condBlankFalsy v with
  | error e => rw [hb] at h; exact absurd h (by simp)
  | ok b =>
    rw [hb] at h
    cases b with
    | true => exact Or.inl (by injection h with h; exact h.symm)
    | false => exact Or.inr (by injection h with h; exact h.symm)

lemma condRemove_blank {v : JSVal} {ids doc : List String}
    (hb : condBlankFalsy v = .ok true) :
    condRemove v ids doc = .ok (removeIds ids doc) := by
  unfold condRemove
  rw [hb]

lemma condRemove_mem_iff (x : String) {v : JSVal} {ids doc doc' : List String}
    (hx : ids.contains x = false) (h : condRemove v ids doc = .ok doc') :
    x ∈ doc' ↔ x ∈ doc := by
  rcases condRemove_ok h with h' | h' <;> subst h'
  · rw [mem_removeIds]
    exact ⟨fun h' => h'.1, fun h' => ⟨h', hx⟩⟩
  · exact Iff.rfl

lemma condRemove_not_mem {x : String} {v : JSVal} {ids doc doc' : List String}
    (h : condRemove v ids doc = .ok doc') (hx : x ∉ doc) : x ∉ doc' := by
  rcases condRemove_ok h with h' | h' <;> subst h'
  · rw [mem_removeIds]; tauto
  · exact hx

lemma contains_true_of_mem {x : String} {l : List String} (h : x ∈ l) :
    l.contains x = true := by
  simp [List.contains, List.elem_eq_mem, h]

lemma not_mem_removeIds_self {x : String} {ids doc : List String} (hx : x ∈ ids) :
    x ∉ removeIds ids doc := by
  rw [mem_removeIds]
  rintro ⟨_, hc⟩
  rw [contains_true_of_mem hx] at hc
  exact absurd hc (by simp)

lemma removeIds_not_mem {x : String} {ids doc : List String} (hx : x ∉ doc) :
    x ∉ removeIds ids doc := by
  rw [mem_removeIds]
  rintro ⟨hm, _⟩
  exact hx hm

lemma splitOnChar_not_mem {sep : Char} {l : List Char} (h : sep ∉ l) :
    splitOnChar sep l = [l] := by
  induction l with
  | nil => rfl
  | cons c t ih =>
    have hc : (c == sep) = false := by
      simp only [beq_eq_false_iff_ne, ne_eq]
      intro hh
      exact h (by rw [hh]; exact List.mem_cons_self _ _)
    unfold splitOnChar
    rw [hc]
    simp only [Bool.false_eq_true, if_false]
    rw [ih (fun hm => h (List.mem_cons_of_mem _ hm))]

lemma splitOnChar_cons (sep c : Char) (rest : List Char) :
    splitOnChar sep (c :: rest)
      = if c == sep then [] :: splitOnChar sep rest
        else match splitOnChar sep rest with
          | [] => [[c]]
          | line :: lines => (c :: line) :: lines := rfl

lemma splitOnChar_append {sep : Char} {l1 l2 : List Char} (h : sep ∉ l1) :
    splitOnChar sep (l1 ++ sep :: l2) = l1 :: splitOnChar sep l2 := by
  induction l1 with
  | nil =>
    simp only [List.nil_append, splitOnChar_cons]
    rw [show (sep == sep) = true by simp]
    simp
  | cons c t ih =>
    have hc : (c == sep) = false := by
      simp only [beq_eq_false_iff_ne, ne_eq]
      intro hh
      exact h (by rw [hh]; exact List.mem_cons_self _ _)
    simp only [List.cons_append, splitOnChar_cons]
    rw [hc]
    simp only [Bool.false_eq_true, if_false]
    rw [ih (fun hm => h (List.mem_cons_of_mem _ hm))]

lemma isEmptyPrevValue_iff (v : JSVal) :
    isEmptyPrevValue v = true ↔ specBlankPrev v := by
  cases v <;> simp [isEmptyPrevValue, specBlankPrev, List.isEmpty_iff]

lemma hasEmptyPreviousData_iff (data : FieldMap) :
    hasEmptyPreviousData data = true
      ↔ ∃ k ∈ prevFields, specBlankPrev (getField data k) := by
  unfold hasEmptyPreviousData
  rw [List.any_eq_true]
  constructor
  · rintro ⟨v, hv, hp⟩
    rw [List.mem_map] at hv
    obtain ⟨k, hk, rfl⟩ := hv
    exact ⟨k, hk, (isEmptyPrevValue_iff _).mp hp⟩
  · rintro ⟨k, hk, hp⟩
    exact ⟨getField data k, List.mem_map.mpr ⟨k, hk, rfl⟩, (isEmptyPrevValue_iff _).mpr hp⟩

lemma formatDate_str_eval (l : List Char) (hne : l.isEmpty = false) :
    formatDate (JSVal.str (String.mk l))
      = .ok (String.mk ((((splitOnChar '-' l).get? 2).getD "undefined".toList)
          ++ " / ".toList ++ (((splitOnChar '-' l).get? 1).getD "undefined".toList)
          ++ " / ".toList ++ (((splitOnChar '-' l).get? 0).getD "undefined".toList))) := by
  unfold formatDate
  rw [if_neg]
  · rfl
  · show ¬ falsy (JSVal.str (String.mk l)) = true
    simp only [falsy, String.toList]
    simp [hne]

/-! ## Claim theorems -/

/-- C1 counterexample: the claim asserts the token `"{{ name }}"` stays
exactly `"{{ name }}"` when the field is absent; the code instead re-emits
the token without the inner whitespace, as `"{{name}}"`. -/
theorem c1_counterexample :
    replaceTemplate "{{ name }}" [] = "{{name}}"
      ∧ ("{{name}}" : String) ≠ "{{ name }}" := by
  exact ⟨by decide, by decide⟩

/-- C1 (amended): a placeholder token whose field is absent is left
unresolved in the output rather than blanked, but it is re-emitted in the
normalised form with the whitespace inside the braces dropped; a token
written without inner whitespace is therefore preserved exactly. -/
theorem c1_absent_token_left_unresolved (data : FieldMap) (ws1 key ws2 : List Char)
    (h1 : ∀ c ∈ ws1, isSpaceJS c = true) (h2 : ∀ c ∈ key, isWordChar c = true)
    (h3 : key ≠ []) (h4 : ∀ c ∈ ws2, isSpaceJS c = true)
    (h5 : getField data (String.mk key) = .undefined) :
    replaceTemplate (String.mk ('{' :: '{' :: (ws1 ++ (key ++ (ws2 ++ ['}', '}']))))) data
      = String.mk ('{' :: '{' :: (key ++ ['}', '}'])) := by
  rw [render_single_token data ws1 key ws2 h1 h2 h3 h4]
  unfold tokenReplacement
  rw [h5]
  rfl

/-- C1 witness: the amended statement at the concrete token `"{{ name }}"`
with an empty field map. -/
theorem c1_witness :
    replaceTemplate "{{ name }}" [] = "{{name}}" := by
  have h := c1_absent_token_left_unresolved [] [' '] "name".toList [' ']
    (by decide) (by decide) (by decide) (by decide) (by decide)
  exact Eq.trans (Eq.trans (by decide) h) (by decide)

/-- C3: for every present value of a list-formatted field, rendering the
field's token produces exactly the spec's list formatting: split the
stringified value on newline, trim, drop empty lines; one line gives
`<p>LINE</p>`, zero lines give `<ul></ul>`, two or more give a `<ul>` of
`<li>` items, each with a single leading `"- "` stripped and trimmed
again. -/
theorem c3_list_field_rendering (data : FieldMap) (key : List Char) (v : JSVal)
    (h2 : ∀ c ∈ key, isWordChar c = true) (h3 : key ≠ [])
    (hk : listFields.contains (String.mk key) = true)
    (hv : getField data (String.mk key) = v) (hne : v ≠ .undefined) :
    replaceTemplate (String.mk ('{' :: '{' :: (key ++ ['}', '}']))) data
      = String.mk (specListFormat (jsStringL v)) := by
  have h := render_single_token data [] key [] (by intro c hc; cases hc) h2 h3
    (by intro c hc; cases hc)
  simp only [List.nil_append, List.append_nil] at h
  rw [h]
  unfold tokenReplacement
  rw [hv, hk]
  cases v with
  | undefined => exact absurd rfl hne
  | null => simp [formatListL_eq_spec]
  | str s => simp [formatListL_eq_spec]
  | num n => simp [formatListL_eq_spec]
  | bool b => simp [formatListL_eq_spec]

/-- C3 witness: the list-formatted field `interests` with the spec's
example value renders as the expected bullet list. -/
theorem c3_witness :
    replaceTemplate "{{interests}}" [("interests", JSVal.str "a\n- b\n \nc")]
      = "<ul><li>a</li><li>b</li><li>c</li></ul>" := by
  have h := c3_list_field_rendering [("interests", JSVal.str "a\n- b\n \nc")]
    "interests".toList (JSVal.str "a\n- b\n \nc")
    (by decide) (by decide) (by decide) (by decide) (by decide)
  exact Eq.trans (Eq.trans (by decide) h) (by decide)

/-- C10: a token whose field is present with an explicit null is not
preserved: the null is stringified, yielding `"<p>null</p>"` for a
list-formatted field and `"null"` for a plain field, because only the
absent marker triggers the preserve-token fallback. -/
theorem c10_null_is_substituted (data : FieldMap) (key : List Char)
    (h2 : ∀ c ∈ key, isWordChar c = true) (h3 : key ≠ [])
    (hv : getField data (String.mk key) = .null) :
    replaceTemplate (String.mk ('{' :: '{' :: (key ++ ['}', '}']))) data
      = (if listFields.contains (String.mk key) then "<p>null</p>" else "null") := by
  have h := render_single_token data [] key [] (by intro c hc; cases hc) h2 h3
    (by intro c hc; cases hc)
  simp only [List.nil_append, List.append_nil] at h
  rw [h]
  unfold tokenReplacement
  rw [hv]
  cases hk : listFields.contains (String.mk key) with
  | true => simp only [hk, if_true]; decide
  | false => simp only [hk, if_false]; decide

/-- C10 witness: a null `webinars` (list-formatted) renders as
`<p>null</p>` and a null `age` (plain) renders as `null`. -/
theorem c10_witness :
    replaceTemplate "{{webinars}}" [("webinars", JSVal.null)] = "<p>null</p>"
      ∧ replaceTemplate "{{age}}" [("age", JSVal.null)] = "null" := by
  constructor
  · have h := c10_null_is_substituted [("webinars", JSVal.null)] "webinars".toList
      (by decide) (by decide) (by decide)
    exact Eq.trans (Eq.trans (by decide) h) (by decide)
  · have h := c10_null_is_substituted [("age", JSVal.null)] "age".toList
      (by decide) (by decide) (by decide)
    exact Eq.trans (Eq.trans (by decide) h) (by decide)

/-- C2 counterexample: the field value numeric 0 is none of absent, null,
or a string trimming to empty, yet the academy section is removed when
`leadershipAcademy` holds numeric 0, because the academy condition tests
JS falsiness. The claim's "a section whose gating field holds numeric 0 is
kept" is therefore false. -/
theorem c2_counterexample :
    pruneIndex [("leadershipAcademy", JSVal.num 0)] ["academy"] = .ok []
      ∧ ¬ specBlankPrev (JSVal.num 0) := by
  exact ⟨rfl, by decide⟩

/-- C2 (amended): the claim's blank test (absent, null, or a string that
trims to empty; numeric 0 and the string "0" not blank) holds exactly for
the chart-container condition; the academy, story, team and story-link
conditions instead treat every JS-falsy value as blank, so numeric 0
counts as blank there, while the string "0" is non-blank for every
condition. -/
theorem c2_blank_tests (v : JSVal) :
    (isEmptyPrevValue v = true ↔ specBlankPrev v)
      ∧ condBlankFalsy (JSVal.num 0) = .ok true
      ∧ condBlankFalsy (JSVal.str "0") = .ok false
      ∧ isEmptyPrevValue (JSVal.num 0) = false
      ∧ isEmptyPrevValue (JSVal.str "0") = false :=
  ⟨isEmptyPrevValue_iff v, rfl, rfl, rfl, rfl⟩

/-- C2 witness: the amended statement instantiated at a whitespace-only
string value. -/
theorem c2_witness :
    (isEmptyPrevValue (JSVal.str "   ") = true ↔ specBlankPrev (JSVal.str "   "))
      ∧ condBlankFalsy (JSVal.num 0) = .ok true
      ∧ condBlankFalsy (JSVal.str "0") = .ok false
      ∧ isEmptyPrevValue (JSVal.num 0) = false
      ∧ isEmptyPrevValue (JSVal.str "0") = false :=
  c2_blank_tests (JSVal.str "   ")

/-- C4: when the pruner completes, the chart-container element survives
exactly when it was present and none of the five previous-period fields is
blank, where blank means undefined, null, or a string that trims to empty
(so the values "0" are all non-blank and keep the section). -/
theorem c4_chart_container (data : FieldMap) (doc doc' : List String)
    (h : pruneIndex data doc = .ok doc') :
    ("chart-container" ∈ doc'
        ↔ "chart-container" ∈ doc ∧ hasEmptyPreviousData data = false)
      ∧ (hasEmptyPreviousData data = true
        ↔ ∃ k ∈ prevFields, specBlankPrev (getField data k)) := by
  refine ⟨?_, hasEmptyPreviousData_iff data⟩
  unfold pruneIndex at h
  cases e1 : condRemove (getField data "leadershipAcademy") ["academy"] doc with
  | error e => rw [e1] at h; exact absurd h (by simp)
  | ok doc1 =>
    rw [e1] at h
    dsimp only at h
    cases e2 : condRemove (getField data "team") teamIds doc1 with
    | error e => rw [e2] at h; exact absurd h (by simp)
    | ok doc2 =>
      rw [e2] at h
      dsimp only at h
      cases e3 : condRemove (getField data "storyLink") ["story-link"] doc2 with
      | error e => rw [e3] at h; exact absurd h (by simp)
      | ok doc3 =>
        rw [e3] at h
        dsimp only at h
        simp only [Except.ok.injEq] at h
        subst h
        have m1 := condRemove_mem_iff "chart-container" (by decide) e1
        have m2 := condRemove_mem_iff "chart-container" (by decide) e2
        have m3 := condRemove_mem_iff "chart-container" (by decide) e3
        cases hED : hasEmptyPreviousData data with
        | true =>
          constructor
          · intro hm
            exact absurd hm (not_mem_removeIds_self (by decide))
          · rintro ⟨_, hfalse⟩
            exact absurd hfalse (by simp)
        | false =>
          rw [show (if false = true then removeIds ["chart-container"] doc3 else doc3)
              = doc3 from rfl]
          rw [m3, m2, m1]
          simp

/-- C4 witness: with all five previous-period fields equal to the string
"0", the chart container is kept. -/
theorem c4_witness :
    (("chart-container" : String) ∈ (["chart-container"] : List String)
        ↔ ("chart-container" : String) ∈ (["chart-container"] : List String)
          ∧ hasEmptyPreviousData
              [("previousMonths", JSVal.str "0"), ("previousCourses", JSVal.str "0"),
               ("previousTrips", JSVal.str "0"), ("previousVolunteering", JSVal.str "0"),
               ("previousTasks", JSVal.str "0")] = false)
      ∧ (hasEmptyPreviousData
            [("previousMonths", JSVal.str "0"), ("previousCourses", JSVal.str "0"),
             ("previousTrips", JSVal.str "0"), ("previousVolunteering", JSVal.str "0"),
             ("previousTasks", JSVal.str "0")] = true
        ↔ ∃ k ∈ prevFields, specBlankPrev (getField
            [("previousMonths", JSVal.str "0"), ("previousCourses", JSVal.str "0"),
             ("previousTrips", JSVal.str "0"), ("previousVolunteering", JSVal.str "0"),
             ("previousTasks", JSVal.str "0")] k)) :=
  c4_chart_container
    [("previousMonths", JSVal.str "0"), ("previousCourses", JSVal.str "0"),
     ("previousTrips", JSVal.str "0"), ("previousVolunteering", JSVal.str "0"),
     ("previousTasks", JSVal.str "0")]
    ["chart-container"] ["chart-container"] rfl

/-- C5 counterexample: the claim says every variant of the pruner removes
the story element when storyText is blank; in the `src/index.js` variant
the story element survives a run with storyText absent (hence blank). -/
theorem c5_counterexample :
    pruneIndex [] ["story"] = .ok ["story"] := rfl

/-- C5 (amended): only the `src/unnamed/part_000` variant of the pruner
has a story rule: there, when storyText is blank, the story element is
removed; the `src/index.js` variant has no story-removal rule at all. -/
theorem c5_story_removed_part000 (data : FieldMap) (doc doc' : List String)
    (hstory : condBlankFalsy (getField data "storyText") = .ok true)
    (h : prunePart000 data doc = .ok doc') :
    "story" ∉ doc' := by
  unfold prunePart000 at h
  cases e1 : condRemove (getField data "leadershipAcademy") ["academy"] doc with
  | error e => rw [e1] at h; exact absurd h (by simp)
  | ok doc1 =>
    rw [e1] at h
    dsimp only at h
    rw [condRemove_blank hstory] at h
    dsimp only at h
    have hs2 : "story" ∉ removeIds ["story"] doc1 :=
      not_mem_removeIds_self (by decide)
    cases e3 : condRemove (getField data "team") teamIds (removeIds ["story"] doc1) with
    | error e => rw [e3] at h; exact absurd h (by simp)
    | ok doc3 =>
      rw [e3] at h
      dsimp only at h
      have hs3 := condRemove_not_mem e3 hs2
      cases e4 : condRemove (getField data "storyLink") ["story-link"] doc3 with
      | error e => rw [e4] at h; exact absurd h (by simp)
      | ok doc4 =>
        rw [e4] at h
        dsimp only at h
        have hs4 := condRemove_not_mem e4 hs3
        simp only [Except.ok.injEq] at h
        subst h
        cases hED : hasEmptyPreviousData data with
        | true => exact removeIds_not_mem hs4
        | false => exact hs4

/-- C5 witness: the amended statement at an explicit-null storyText and a
document containing only the story element. -/
theorem c5_witness : ("story" : String) ∉ ([] : List String) :=
  c5_story_removed_part000 [("storyText", JSVal.null)] ["story"] [] rfl rfl

/-- C6: when the team field is blank, the pruner removes all four elements
of the team cluster (team, position, team-break-line separator, feadback)
regardless of the other fields' values; ids absent from the document are
skipped silently, and the removal is all-or-nothing. -/
theorem c6_team_cluster (data : FieldMap) (doc doc' : List String)
    (hteam : condBlankFalsy (getField data "team") = .ok true)
    (h : pruneIndex data doc = .ok doc') :
    "team" ∉ doc' ∧ "position" ∉ doc'
      ∧ "team-break-line" ∉ doc' ∧ "feadback" ∉ doc' := by
  unfold pruneIndex at h
  cases e1 : condRemove (getField data "leadershipAcademy") ["academy"] doc with
  | error e => rw [e1] at h; exact absurd h (by simp)
  | ok doc1 =>
    rw [e1] at h
    dsimp only at h
    rw [condRemove_blank hteam] at h
    dsimp only at h
    have hmain : ∀ x ∈ teamIds, x ∉ doc' := by
      intro x hx
      have hx2 : x ∉ removeIds teamIds doc1 := not_mem_removeIds_self hx
      cases e3 : condRemove (getField data "storyLink") ["story-link"]
          (removeIds teamIds doc1) with
      | error e => rw [e3] at h; exact absurd h (by simp)
      | ok doc3 =>
        rw [e3] at h
        dsimp only at h
        have hx3 := condRemove_not_mem e3 hx2
        simp only [Except.ok.injEq] at h
        subst h
        cases hED : hasEmptyPreviousData data with
        | true => exact removeIds_not_mem hx3
        | false => exact hx3
    exact ⟨hmain "team" (by decide), hmain "position" (by decide),
      hmain "team-break-line" (by decide), hmain "feadback" (by decide)⟩

/-- C6 witness: with a whitespace-only team value and a non-blank position
value, all four cluster elements are removed from a document containing
them and nothing of the cluster survives. -/
theorem c6_witness :
    ("team" : String) ∉ ([] : List String) ∧ ("position" : String) ∉ ([] : List String)
      ∧ ("team-break-line" : String) ∉ ([] : List String)
      ∧ ("feadback" : String) ∉ ([] : List String) :=
  c6_team_cluster [("team", JSVal.str "  "), ("position", JSVal.str "Lead")]
    ["team", "position", "team-break-line", "feadback", "academy", "chart-container"]
    [] rfl rfl

/-- C7: the date formatter maps a dash-separated string `Y-M-D` (no dashes
inside the parts) to `D / M / Y`, and maps empty and absent input to the
empty string. -/
theorem c7_format_date (y m d : List Char)
    (hy : '-' ∉ y) (hm : '-' ∉ m) (hd : '-' ∉ d) :
    formatDate (JSVal.str (String.mk (y ++ '-' :: (m ++ '-' :: d))))
        = .ok (String.mk (d ++ " / ".toList ++ m ++ " / ".toList ++ y))
      ∧ formatDate (JSVal.str "") = .ok ""
      ∧ formatDate JSVal.undefined = .ok "" := by
  refine ⟨?_, rfl, rfl⟩
  have hsplit : splitOnChar '-' (y ++ '-' :: (m ++ '-' :: d)) = [y, m, d] := by
    rw [splitOnChar_append hy, splitOnChar_append hm, splitOnChar_not_mem hd]
  have hne : (y ++ '-' :: (m ++ '-' :: d)).isEmpty = false := by
    simp [List.isEmpty_iff]
  rw [formatDate_str_eval _ hne, hsplit]
  rfl

/-- C7 witness: `"2024-03-07"` formats to `"07 / 03 / 2024"`, and empty and
absent dates format to the empty string. -/
theorem c7_witness :
    formatDate (JSVal.str "2024-03-07") = .ok "07 / 03 / 2024"
      ∧ formatDate (JSVal.str "") = .ok ""
      ∧ formatDate JSVal.undefined = .ok "" := by
  have h := c7_format_date "2024".toList "03".toList "07".toList
    (by decide) (by decide) (by decide)
  exact ⟨Eq.trans (Eq.trans (by decide) h.1) (by decide), h.2.1, h.2.2⟩

/-- C8: the PDF page produced for a measured document pixel height is a
single page of fixed 210mm width whose height in millimetres is
`max 297 (height * 0.264583)`, hence never below the A4 length of 297mm. -/
theorem c8_page_size (bodyHeight : ℚ) :
    pdfPageSize bodyHeight
        = { widthMM := 210, heightMM := max 297 (bodyHeight * (264583 / 1000000)) }
      ∧ 297 ≤ (pdfPageSize bodyHeight).heightMM :=
  ⟨rfl, le_max_left _ _⟩

/-- C8 witness: the page size at a measured height of 2000 pixels. -/
theorem c8_witness :
    pdfPageSize 2000
        = { widthMM := 210, heightMM := max 297 (2000 * (264583 / 1000000)) }
      ∧ 297 ≤ (pdfPageSize 2000).heightMM :=
  c8_page_size 2000

/-- C9: when `template.html` is absent the upload-pdf entry section always
answers with a client error (a 4xx status and an error message) and never
reaches the rendering pipeline, which is the only path that launches the
browser; in the authenticated case the response is the 400 template-not-
found error. -/
theorem c9_missing_template (env : UploadEnv) (h : env.templateExists = false) :
    isClientError (uploadPdfEntry env)
      ∧ uploadPdfEntry env ≠ .renderPipeline
      ∧ uploadPdfEntry { tokensPresent := true, templateExists := false }
          = .earlyClientError 400 "template.html file not found" := by
  obtain ⟨t, te⟩ := env
  have hte : te = false := h
  subst hte
  cases t with
  | false => exact ⟨by norm_num [uploadPdfEntry, isClientError], by decide, rfl⟩
  | true => exact ⟨by norm_num [uploadPdfEntry, isClientError], by decide, rfl⟩

/-- C9 witness: the authenticated, template-missing environment. -/
theorem c9_witness :
    isClientError (uploadPdfEntry { tokensPresent := true, templateExists := false })
      ∧ uploadPdfEntry { tokensPresent := true, templateExists := false }
          ≠ .renderPipeline
      ∧ uploadPdfEntry { tokensPresent := true, templateExists := false }
          = .earlyClientError 400 "template.html file not found" :=
  c9_missing_template { tokensPresent := true, templateExists := false } rfl
